import Mathlib

/-!
Shallow embedding of the `create-go-api` scaffolding tool.

The embedding follows the Go sources of the repository:
* `internal/generator/config.go` — configuration data model;
* `internal/generator/project.go` — `getFileGenerationRules`,
  `awsRegionToFlyRegion`, `getTemplateData`, `generateFiles`;
* `internal/generator/files.go` — `replaceModulePath`, `replaceProjectName`,
  `copyFile`, `generateFile`;
* the `Generator.Generate` orchestration and `createCmd` CLI entry point;
* `internal/tui/main.go` and `internal/tui/forms.go` — the wizard state
  machine (`Model.Update`, `Model.generate`) and its form widgets.

Go string types (`DatabaseType`, `FrameworkType`) are embedded as `String`:
in Go they are string aliases, so values outside the two named constants
are representable.  Machine integers do not occur in the modelled code
paths.  File contents are embedded as `List Char`; Go `strings.ReplaceAll`
is embedded as `replaceAll` below.
-/

namespace CreateGoApi

/-! ## Data model (`internal/generator/config.go`) -/

/-- Go: `DatabaseTypePostgres DatabaseType = "postgres"`. -/
def DatabaseTypePostgres : String := "postgres"

/-- Go: `DatabaseTypeDynamoDB DatabaseType = "dynamodb"`. -/
def DatabaseTypeDynamoDB : String := "dynamodb"

/-- Go: `FrameworkTypeChi FrameworkType = "chi"`. -/
def FrameworkTypeChi : String := "chi"

/-- Go: `FrameworkTypeConnectRPC FrameworkType = "connectrpc"`. -/
def FrameworkTypeConnectRPC : String := "connectrpc"

/-- Go struct `DatabaseConfig` (config.go).  `DatabaseType` is a Go string
type, hence `String` here. -/
structure DatabaseConfig where
  type : String
  awsAccessKeyID : String := ""
  awsSecretKey : String := ""
  awsRegion : String := ""
deriving DecidableEq, Repr

/-- Go struct `ProjectConfig` (config.go). -/
structure ProjectConfig where
  projectName : String
  modulePath : String
  outputDir : String
  database : DatabaseConfig
  framework : String
  deploy : Bool
deriving DecidableEq, Repr

/-! ## Rule table (`internal/generator/project.go`) -/

/-- Go struct `fileMapping` (project.go). -/
structure fileMapping where
  outputPath : String
  templatePath : String
deriving DecidableEq, Repr

/-- Go struct `fileGenerationRule` (project.go).  The only rule in the
source that carries a non-nil `condition` is the deployment-files rule;
its Go closure performs a `MkdirAll` side effect and returns `true`, so it
is embedded as `some (fun _ => true)`. -/
structure fileGenerationRule where
  files : List fileMapping
  condition : Option (ProjectConfig → Bool) := none

/-- Base files rule (always generated). -/
def baseRule : fileGenerationRule where
  files := [
    ⟨"go.mod", "templates/base/go.mod.tmpl"⟩,
    ⟨"README.md", "templates/base/README.md.tmpl"⟩,
    ⟨"Makefile", "templates/Makefile.tmpl"⟩,
    ⟨".gitignore", "static/.gitignore"⟩,
    ⟨".dockerignore", "static/.dockerignore"⟩,
    ⟨".env", "templates/.env.tmpl"⟩,
    ⟨".mockery.yaml", "templates/.mockery.yaml.tmpl"⟩,
    ⟨"prometheus.yml", "templates/prometheus.yml.tmpl"⟩,
    ⟨"grafana/provisioning/datasources/prometheus.yml",
      "templates/grafana/provisioning/datasources/prometheus.yml.tmpl"⟩]

/-- Config files rule (always generated). -/
def configRule : fileGenerationRule where
  files := [
    ⟨"internal/config/stage.go", "static/internal/config/stage.go"⟩,
    ⟨"internal/config/config.go", "static/internal/config/config.go"⟩,
    ⟨"internal/config/local.yaml", "static/internal/config/local.yaml"⟩,
    ⟨"internal/config/production.yaml", "static/internal/config/production.yaml"⟩]

/-- Posts domain files rule (always generated). -/
def postsRule : fileGenerationRule where
  files := [
    ⟨"internal/posts/post.go", "static/internal/posts/post.go"⟩,
    ⟨"internal/posts/errors.go", "static/internal/posts/errors.go"⟩,
    ⟨"internal/posts/table.go", "static/internal/posts/table.go"⟩,
    ⟨"internal/posts/service.go", "static/internal/posts/service.go"⟩,
    ⟨"internal/posts/service_test.go", "static/internal/posts/service_test.go"⟩]

/-- Scripts rule (always generated). -/
def scriptsRule : fileGenerationRule where
  files := [
    ⟨"scripts/check-deps.sh", "templates/scripts/check-deps.sh.tmpl"⟩,
    ⟨"scripts/generate.sh", "templates/scripts/generate.sh.tmpl"⟩,
    ⟨"scripts/migrate.sh", "static/scripts/migrate.sh"⟩]

/-- Deploy scripts rule (only if the deploy option is selected). -/
def deployScriptsRule : fileGenerationRule where
  files := [
    ⟨"scripts/deploy.sh", "templates/scripts/deploy.sh.tmpl"⟩,
    ⟨"scripts/destroy.sh", "templates/scripts/destroy.sh.tmpl"⟩]

/-- The `case DatabaseTypePostgres` rule of the database switch. -/
def postgresRule : fileGenerationRule where
  files := [
    ⟨"internal/database/postgres.go", "static/internal/database/postgres.go"⟩,
    ⟨"internal/posts/postgres_table.go", "static/internal/posts/postgres_table.go"⟩,
    ⟨"internal/posts/postgres_table_test.go",
      "static/internal/posts/postgres_table_test.go"⟩,
    ⟨".env.local", "static/.env.local.postgres"⟩,
    ⟨"docker-compose.yml", "static/docker-compose.yml.postgres"⟩,
    ⟨"schema.sql", "static/schema.sql"⟩]

/-- The `case DatabaseTypeDynamoDB` rule of the database switch. -/
def dynamoRule : fileGenerationRule where
  files := [
    ⟨"internal/database/dynamodb.go", "static/internal/database/dynamodb.go"⟩,
    ⟨"internal/posts/dynamodb_table.go", "static/internal/posts/dynamodb_table.go"⟩,
    ⟨"internal/posts/dynamodb_table_test.go",
      "static/internal/posts/dynamodb_table_test.go"⟩,
    ⟨"internal/posts/dynamodb_converters.go",
      "static/internal/posts/dynamodb_converters.go"⟩,
    ⟨".env.local", "templates/.env.local.dynamodb.tmpl"⟩,
    ⟨"docker-compose.yml", "static/docker-compose.yml.dynamodb"⟩]

/-- The `case FrameworkTypeChi` rule of the framework switch. -/
def chiRule : fileGenerationRule where
  files := [
    ⟨"cmd/api/main.go", "templates/cmd/api/main_chi.go.tmpl"⟩,
    ⟨"internal/posts/routes.go", "static/internal/posts/routes.go"⟩]

/-- The `case FrameworkTypeConnectRPC` rule of the framework switch. -/
def connectRule : fileGenerationRule where
  files := [
    ⟨"cmd/api/main.go", "templates/cmd/api/main_connectrpc.go.tmpl"⟩,
    ⟨"internal/api/posts_handler.go", "static/internal/api/posts_handler_connectrpc.go"⟩,
    ⟨"internal/posts/converters.go", "templates/internal/posts/converters.go.tmpl"⟩,
    ⟨"internal/protos/posts/v1/posts.proto", "static/protos/posts/v1/posts.proto"⟩,
    ⟨"buf.yaml", "static/buf.yaml"⟩,
    ⟨"buf.gen.yaml", "templates/buf.gen.yaml.tmpl"⟩]

/-- The deployment-files rule (only if the deploy option is selected); in
the source its condition closure creates the `.github/workflows` directory
as a side effect and returns `true`. -/
def deployFilesRule : fileGenerationRule where
  files := [
    ⟨"fly.toml", "templates/deploy/fly.toml.tmpl"⟩,
    ⟨"Dockerfile", "static/Dockerfile"⟩,
    ⟨".github/workflows/deploy.yml",
      "templates/deploy/github/workflows/deploy.yml.tmpl"⟩]
  condition := some (fun _ => true)

/-- Go: `getFileGenerationRules` (project.go), transcribed rule for rule in
declaration order.  The Go `switch` statements on `Database.Type` and
`Framework` have no `default` branch, which the `if`/`else` chains mirror:
for a `Database.Type` or `Framework` string outside the named constants no
branch fires. -/
def getFileGenerationRules (g : ProjectConfig) : List fileGenerationRule :=
  [baseRule, configRule, postsRule, scriptsRule]
  -- Deploy scripts (only if deploy option is selected)
  ++ (if g.deploy then [deployScriptsRule] else [])
  -- Database type-specific files
  ++ (if g.database.type = DatabaseTypePostgres then [postgresRule]
      else if g.database.type = DatabaseTypeDynamoDB then [dynamoRule]
      else [])
  -- Framework type-specific files
  ++ (if g.framework = FrameworkTypeChi then [chiRule]
      else if g.framework = FrameworkTypeConnectRPC then [connectRule]
      else [])
  -- Deployment files
  ++ (if g.deploy then [deployFilesRule] else [])

/-- The ordered plan: the `(outputPath, templatePath)` entries of all rules
whose condition is absent or evaluates to `true`, in rule order, exactly as
the loop in `Generator.Generate` consumes them. -/
def planMappings (g : ProjectConfig) : List fileMapping :=
  (getFileGenerationRules g).flatMap fun r =>
    match r.condition with
    | none => r.files
    | some c => if c g then r.files else []

/-- The ordered list of output paths of the plan. -/
def planPaths (g : ProjectConfig) : List String :=
  (planMappings g).map (·.outputPath)

/-! ## Placeholder substitution (`internal/generator/files.go`)

File contents are `List Char`.  `replaceAll p r s` embeds Go's
`strings.ReplaceAll(s, p, r)` for a non-empty pattern `p`: it scans `s`
left to right and replaces each leftmost non-overlapping occurrence of `p`
by `r`.  (Go's special behaviour for an empty pattern is out of scope: the
program only ever substitutes the three non-empty placeholder constants.)
-/

/-- Fuel-indexed worker for `replaceAll`.  Structural recursion on the
fuel keeps the function kernel-reducible; the fuel is immaterial as long
as it bounds the input length (`replaceAllFuel_fuel_irrel`). -/
def replaceAllFuel (p r : List Char) : Nat → List Char → List Char
  | _, [] => []
  | 0, s => s
  | fuel + 1, c :: t =>
    if p <+: (c :: t) then r ++ replaceAllFuel p r fuel (List.drop (p.length - 1) t)
    else c :: replaceAllFuel p r fuel t

/-- Go `strings.ReplaceAll(s, p, r)`, `p` non-empty: leftmost-first,
non-overlapping replacement of every occurrence of `p` in `s` by `r`. -/
def replaceAll (p r s : List Char) : List Char :=
  replaceAllFuel p r s.length s

theorem replaceAllFuel_fuel_irrel (p r : List Char) :
    ∀ (n m : Nat) (t : List Char), t.length ≤ n → t.length ≤ m →
      replaceAllFuel p r n t = replaceAllFuel p r m t := by
  intro n
  induction n with
  | zero =>
    intro m t hn _
    have : t = [] := List.length_eq_zero.mp (Nat.le_zero.mp hn)
    subst this
    cases m <;> rfl
  | succ n ihn =>
    intro m t hn hm
    match t with
    | [] => cases m <;> rfl
    | c :: t' =>
      match m with
      | 0 => exact absurd hm (by simp)
      | m' + 1 =>
        simp only [replaceAllFuel]
        have hn' : t'.length ≤ n := by simpa using hn
        have hm' : t'.length ≤ m' := by simpa using hm
        by_cases hp : p <+: (c :: t')
        · rw [if_pos hp, if_pos hp,
            ihn m' (List.drop (p.length - 1) t')
              (le_trans (by simp [List.length_drop]) hn')
              (le_trans (by simp [List.length_drop]) hm')]
        · rw [if_neg hp, if_neg hp, ihn m' t' hn' hm']

theorem replaceAll_nil (p r : List Char) : replaceAll p r [] = [] := rfl

theorem replaceAll_cons (p r : List Char) (c : Char) (t : List Char) :
    replaceAll p r (c :: t) =
      if p <+: (c :: t) then r ++ replaceAll p r (List.drop (p.length - 1) t)
      else c :: replaceAll p r t := by
  show replaceAllFuel p r (t.length + 1) (c :: t) = _
  simp only [replaceAllFuel]
  by_cases hp : p <+: (c :: t)
  · rw [if_pos hp, if_pos hp,
      replaceAllFuel_fuel_irrel p r t.length (List.drop (p.length - 1) t).length
        (List.drop (p.length - 1) t) (by simp [List.length_drop]) le_rfl]
    rfl
  · rw [if_neg hp, if_neg hp]
    rfl

/-- Go constant `PlaceholderModulePath` (files.go). -/
def PlaceholderModulePath : List Char := "github.com/acme/postservice".data

/-- Go constant `StaticModulePath` (files.go). -/
def StaticModulePath : List Char :=
  "github.com/andrewho/create-go-api/internal/generator/static".data

/-- Go constant `PlaceholderProjectName` (files.go). -/
def PlaceholderProjectName : List Char := "postservice".data

/-- Go: `replaceModulePath` (files.go), its four `strings.ReplaceAll`
calls in source order. -/
def replaceModulePath (content modulePath : List Char) : List Char :=
  -- Replace the static module path used for type checking
  let content := replaceAll (StaticModulePath ++ "/internal".data)
      (modulePath ++ "/internal".data) content
  let content := replaceAll (StaticModulePath ++ "/internal/protos/gen".data)
      (modulePath ++ "/internal/protos/gen".data) content
  let content := replaceAll (StaticModulePath ++ "/protos".data)
      (modulePath ++ "/protos".data) content
  -- Replace the placeholder module path (for templates)
  replaceAll PlaceholderModulePath modulePath content

/-- Go: `replaceProjectName` (files.go). -/
def replaceProjectName (content projectName : List Char) : List Char :=
  replaceAll PlaceholderProjectName projectName content

/-- The placeholder-substitution pass shared by `copyFile` and
`generateFile` (files.go): `replaceModulePath` then `replaceProjectName`. -/
def substitutePlaceholders (content modulePath projectName : List Char) : List Char :=
  replaceProjectName (replaceModulePath content modulePath) projectName

/-! ### Facts about `replaceAll` -/

/-- Splitting a prefix of an append. -/
theorem prefix_append_cases :
    ∀ {a b p : List Char}, p <+: a ++ b →
      p <+: a ∨ (a <+: p ∧ p.drop a.length <+: b) := by
  intro a
  induction a with
  | nil =>
    intro b p h
    exact Or.inr ⟨List.nil_prefix, by simpa using h⟩
  | cons c a' ih =>
    intro b p h
    match p with
    | [] => exact Or.inl (List.nil_prefix)
    | d :: p' =>
      obtain ⟨hd, hp'⟩ := List.cons_prefix_cons.mp h
      subst hd
      rcases ih hp' with h1 | ⟨h2, h3⟩
      · exact Or.inl (List.cons_prefix_cons.mpr ⟨rfl, h1⟩)
      · exact Or.inr ⟨List.cons_prefix_cons.mpr ⟨rfl, h2⟩, by simpa using h3⟩

/-- An occurrence of `p` inside `a ++ b` lies inside `a`, inside `b`, or
straddles the boundary with a non-empty part on each side. -/
theorem infix_append_cases :
    ∀ {a : List Char} {b p : List Char}, p <:+: a ++ b →
      p <:+: a ∨ p <:+: b ∨
        ∃ x y, p = x ++ y ∧ x ≠ [] ∧ y ≠ [] ∧ x <:+ a ∧ y <+: b := by
  intro a
  induction a with
  | nil => intro b p h; exact Or.inr (Or.inl (by simpa using h))
  | cons c a' ih =>
    intro b p h
    rcases List.infix_cons_iff.mp h with hpre | hinf
    · match p, hpre with
      | [], _ => exact Or.inl (List.nil_infix)
      | d :: p', hpre =>
        obtain ⟨hd, hp'⟩ := (List.cons_prefix_cons).mp hpre
        subst hd
        rcases prefix_append_cases hp' with h1 | ⟨h2, h3⟩
        · exact Or.inl (List.IsPrefix.isInfix (List.cons_prefix_cons.mpr ⟨rfl, h1⟩))
        · by_cases hy : p'.drop a'.length = []
          · left
            obtain ⟨tl, htl⟩ := h2
            have htl' : tl = [] := by
              rw [← htl, List.drop_left] at hy
              exact hy
            have hpa : p' = a' := by rw [← htl, htl', List.append_nil]
            subst hpa
            exact List.infix_refl _
          · right; right
            refine ⟨d :: a', p'.drop a'.length, ?_, by simp, hy, List.suffix_refl _, h3⟩
            obtain ⟨tl, htl⟩ := h2
            rw [← htl]
            simp [List.drop_left]
    · rcases ih hinf with h1 | h2 | ⟨x, y, hxy, hx, hy, hsuf, hpre⟩
      · exact Or.inl (List.infix_cons h1)
      · exact Or.inr (Or.inl h2)
      · exact Or.inr (Or.inr ⟨x, y, hxy, hx, hy, hsuf.trans (List.suffix_cons c a'), hpre⟩)

/-- A prefix of a suffix is an infix. -/
theorem infix_of_prefix_suffix {r s p : List Char} (h1 : r <+: s) (h2 : s <:+ p) :
    r <:+: p :=
  h1.isInfix.trans h2.isInfix

/-- Auxiliary invariant for `replaceAll_no_occurrence`: provided no
non-empty prefix of the replacement `r` is a suffix of the pattern `p` and
`r` does not occur inside `p`, a non-empty suffix `s` of `p` that is not a
prefix of the input cannot become a prefix of the output. -/
theorem replaceAll_no_new_start (p r : List Char)
    (hrp : ¬ r <:+: p)
    (hi : ∀ y ∈ r.inits, y ≠ [] → ¬ y <:+ p) :
    ∀ t s, s ≠ [] → s <:+ p → ¬ s <+: t → ¬ s <+: replaceAll p r t := by
  intro t
  induction t with
  | nil =>
    intro s hs _ _ hcon
    rw [replaceAll_nil] at hcon
    exact hs (List.prefix_nil.mp hcon)
  | cons c t' ih =>
    intro s hs hsp hst hcon
    by_cases hp : p <+: (c :: t')
    · rw [replaceAll_cons, if_pos hp] at hcon
      rcases prefix_append_cases hcon with h1 | ⟨h2, _⟩
      · exact hi s ((List.mem_inits s r).mpr h1) hs hsp
      · exact hrp (infix_of_prefix_suffix h2 hsp)
    · rw [replaceAll_cons, if_neg hp] at hcon
      obtain ⟨e, s', rfl⟩ : ∃ e s', s = e :: s' := by
        cases s with
        | nil => exact absurd rfl hs
        | cons a b => exact ⟨a, b, rfl⟩
      obtain ⟨he, hs'⟩ := List.cons_prefix_cons.mp hcon
      subst he
      by_cases hnil : s' = []
      · subst hnil
        exact hst (List.cons_prefix_cons.mpr ⟨rfl, List.nil_prefix⟩)
      · exact ih s' hnil ((List.suffix_cons e s').trans hsp)
          (fun hq => hst (List.cons_prefix_cons.mpr ⟨rfl, hq⟩)) hs'

/-- Completeness of Go's `strings.ReplaceAll`: if the pattern `p` does not
occur in the replacement `r`, `r` does not occur in `p`, no non-empty
prefix of `r` is a suffix of `p`, and no non-empty suffix of `r` is a
prefix of `p`, then `p` does not occur in `replaceAll p r t` for any input
`t`.  (Each hypothesis is necessary: dropping it admits inputs on which a
fresh occurrence of the pattern survives or is recreated across a
replacement boundary.) -/
theorem replaceAll_no_occurrence (p r : List Char)
    (hpr : ¬ p <:+: r) (hrp : ¬ r <:+: p)
    (hi : ∀ y ∈ r.inits, y ≠ [] → ¬ y <:+ p)
    (ht : ∀ x ∈ r.tails, x ≠ [] → ¬ x <+: p) :
    ∀ t, ¬ p <:+: replaceAll p r t := by
  have hp0 : p ≠ [] := fun h => hpr (h ▸ List.nil_infix)
  have main : ∀ n t, t.length ≤ n → ¬ p <:+: replaceAll p r t := by
    intro n
    induction n with
    | zero =>
      intro t hle hcon
      have hnil : t = [] := List.length_eq_zero.mp (Nat.le_zero.mp hle)
      subst hnil
      rw [replaceAll_nil] at hcon
      exact hp0 (List.infix_nil.mp hcon)
    | succ n ihn =>
      intro t hle hcon
      match t with
      | [] =>
        rw [replaceAll_nil] at hcon
        exact hp0 (List.infix_nil.mp hcon)
      | c :: t' =>
        by_cases hp : p <+: (c :: t')
        · rw [replaceAll_cons, if_pos hp] at hcon
          rcases infix_append_cases hcon with h1 | h2 | ⟨x, y, hxy, hx, _, hsufr, _⟩
          · exact hpr h1
          · refine ihn (List.drop (p.length - 1) t') ?_ h2
            have := List.length_cons c t' ▸ hle
            simp only [List.length_drop]
            omega
          · exact ht x ((List.mem_tails x r).mpr hsufr) hx ⟨y, hxy.symm⟩
        · rw [replaceAll_cons, if_neg hp] at hcon
          rcases List.infix_cons_iff.mp hcon with hpre | hinf
          · obtain ⟨e, p'', rfl⟩ : ∃ e p'', p = e :: p'' := by
              cases p with
              | nil => exact absurd rfl hp0
              | cons a b => exact ⟨a, b, rfl⟩
            obtain ⟨he, hp''⟩ := List.cons_prefix_cons.mp hpre
            subst he
            by_cases hnil : p'' = []
            · subst hnil
              exact hp (List.cons_prefix_cons.mpr ⟨rfl, List.nil_prefix⟩)
            · exact replaceAll_no_new_start _ r hrp hi t' p'' hnil
                (List.suffix_cons e p'')
                (fun hq => hp (List.cons_prefix_cons.mpr ⟨rfl, hq⟩)) hp''
          · refine ihn t' ?_ hinf
            have := List.length_cons c t' ▸ hle
            omega
  intro t
  exact main t.length t le_rfl

/-! ## Generation run (`Generator.Generate`, `generateFiles`, `copyFile`,
`generateFile`)

The filesystem and template engine are external collaborators; they are
embedded as an environment of success predicates keyed by path.  The
emitted content is handled by the substitution section above and is
irrelevant to the write-ordering/abort behaviour modelled here, so the
writer model tracks the ordered list of output paths written. -/

/-- Go `filepath.Ext`: the suffix beginning at the final dot in the final
slash-separated element of the path; empty if there is no dot. -/
def filepathExt (path : String) : String :=
  let seg := (path.data.splitOn '/').getLastD []
  if '.' ∈ seg then
    String.mk ('.' :: (seg.reverse.takeWhile (· != '.')).reverse)
  else ""

/-- Outcome environment for the external filesystem and template engine:
whether reading an embedded source path, loading/parsing/executing a
template path, creating the directory for an output path, and writing an
output path succeed. -/
structure FSEnv where
  readOk : String → Bool
  templateOk : String → Bool
  mkdirOk : String → Bool
  writeOk : String → Bool

/-- The error taxonomy of the generation pipeline, as produced by
`copyFile`/`generateFile` (files.go) and `Generate`.  A failing
`WriteFile` surfaces as Go `failed to write file: %w` wrapping the
filesystem's `*PathError`, which carries the output path; `writeError`
records that path. -/
inductive GenError
  | readError (sourcePath : String)
  | templateError (templatePath : String)
  | mkdirError
  | writeError (outputPath : String)
deriving DecidableEq, Repr

/-- Go: `copyFile` (files.go), write-relevant behaviour: read the static
source (fail: names the source path), create the output directory, write
the output file (fail: write error at the output path). -/
def copyFile (env : FSEnv) (outputPath sourcePath : String) : Option GenError :=
  if ¬ env.readOk sourcePath then some (.readError sourcePath)
  else if ¬ env.mkdirOk outputPath then some .mkdirError
  else if ¬ env.writeOk outputPath then some (.writeError outputPath)
  else none

/-- Go: `generateFile` (files.go), write-relevant behaviour: load and
execute the template (fail: names the template path), create the output
directory, write the output file. -/
def generateFile (env : FSEnv) (outputPath templatePath : String) : Option GenError :=
  if ¬ env.templateOk templatePath then some (.templateError templatePath)
  else if ¬ env.mkdirOk outputPath then some .mkdirError
  else if ¬ env.writeOk outputPath then some (.writeError outputPath)
  else none

/-- One iteration of the loop in `generateFiles` (project.go): a source
path without the `.tmpl` extension is copied, any other is rendered. -/
def processFile (env : FSEnv) (f : fileMapping) : Option GenError :=
  if filepathExt f.templatePath ≠ ".tmpl" then copyFile env f.outputPath f.templatePath
  else generateFile env f.outputPath f.templatePath

/-- Go: `generateFiles` (project.go): process the mappings in order,
returning on the first error.  Result: the ordered output paths actually
written, and the first error if any. -/
def generateFiles (env : FSEnv) : List fileMapping → List String × Option GenError
  | [] => ([], none)
  | f :: rest =>
    match processFile env f with
    | some e => ([], some e)
    | none =>
      let res := generateFiles env rest
      (f.outputPath :: res.1, res.2)

/-- Go: the directory list of `createDirectoryStructure`
(`Generator.Generate`'s helper). -/
def createDirectoryStructure (g : ProjectConfig) : List String :=
  ["cmd/api", "internal/config", "internal/database", "internal/posts",
   "internal/metrics"]
  ++ (if g.framework = FrameworkTypeConnectRPC then
        ["internal/protos/posts/v1", "internal/protos/gen/posts/v1"] else [])
  ++ (if g.database.type = DatabaseTypePostgres then ["migrations"] else [])
  ++ ["scripts"]
  ++ (if g.database.type = DatabaseTypeDynamoDB then ["terraform"] else [])

/-- The per-rule loop of `Generator.Generate`: for each rule whose
condition is nil or true, run `generateFiles` on its mappings, aborting on
the first error. -/
def runRules (env : FSEnv) (g : ProjectConfig) :
    List fileGenerationRule → List String × Option GenError
  | [] => ([], none)
  | r :: rest =>
    let files := match r.condition with
      | none => r.files
      | some c => if c g then r.files else []
    match generateFiles env files with
    | (ws, some e) => (ws, some e)
    | (ws, none) =>
      let res := runRules env g rest
      (ws ++ res.1, res.2)

/-- Go: `Generator.Generate`: create the output directory, create the
directory structure, then run all file generation rules in order. -/
def Generate (env : FSEnv) (g : ProjectConfig) : List String × Option GenError :=
  if ¬ env.mkdirOk g.outputDir then ([], some .mkdirError)
  else if ¬ (createDirectoryStructure g).all env.mkdirOk then ([], some .mkdirError)
  else runRules env g (getFileGenerationRules g)

/-! ## Region mapper (`awsRegionToFlyRegion`, project.go) -/

/-- The static AWS-region → Fly.io-region table of `awsRegionToFlyRegion`
(project.go).  The Go code builds this as a map literal; its keys are
pairwise distinct, so the association-list embedding is faithful. -/
def regionMap : List (String × String) :=
  [("us-east-1", "iad"), ("us-east-2", "ord"),
   ("us-west-1", "sea"), ("us-west-2", "dfw"),
   ("eu-west-1", "ams"), ("eu-west-2", "lhr"), ("eu-west-3", "cdg"),
   ("eu-central-1", "fra"), ("eu-north-1", "arn"),
   ("ap-southeast-1", "sin"), ("ap-southeast-2", "syd"),
   ("ap-northeast-1", "nrt"), ("ap-south-1", "bom"),
   ("sa-east-1", "gru")]

/-- Go: `awsRegionToFlyRegion` (project.go): table lookup with default
`"iad"`. -/
def awsRegionToFlyRegion (awsRegion : String) : String :=
  match regionMap.lookup awsRegion with
  | some flyRegion => flyRegion
  | none => "iad"

/-! ## Configuration wizard (`internal/tui/main.go`, `internal/tui/forms.go`)

Key events are embedded by their bubbletea `msg.String()` value: special
keys are multi-character strings (`"enter"`, `"esc"`, `"up"`, ...) and a
typed rune is its one-character string.  The text-input widget is embedded
by its value with rune insertion at the end of the buffer; cursor movement
and deletion do not affect any claim.  The AWS profile/credential readers
are external collaborators, embedded as an environment. -/

/-- Go `Step` constants (main.go), an `int` enumeration `iota`-numbered
0–13. -/
inductive Step
  | welcome | projectName | modulePath | outputDir | databaseSelection
  | awsProfileSelection | awsAccessKeyID | awsSecretKey | awsRegion
  | frameworkSelection | deploySelection | review | generating | complete
deriving DecidableEq, Repr

/-- The numeric value of a `Step` (Go `Step` is an `int`). -/
def Step.idx : Step → Nat
  | .welcome => 0 | .projectName => 1 | .modulePath => 2 | .outputDir => 3
  | .databaseSelection => 4 | .awsProfileSelection => 5 | .awsAccessKeyID => 6
  | .awsSecretKey => 7 | .awsRegion => 8 | .frameworkSelection => 9
  | .deploySelection => 10 | .review => 11 | .generating => 12 | .complete => 13

/-- The `Step` with a given numeric value (inverse of `Step.idx` on 0–13;
the wizard only ever decrements within this range). -/
def Step.ofIdx : Nat → Step
  | 0 => .welcome | 1 => .projectName | 2 => .modulePath | 3 => .outputDir
  | 4 => .databaseSelection | 5 => .awsProfileSelection | 6 => .awsAccessKeyID
  | 7 => .awsSecretKey | 8 => .awsRegion | 9 => .frameworkSelection
  | 10 => .deploySelection | 11 => .review | 12 => .generating | _ => .complete

/-- Go `strings.Contains`. -/
def strContains (s pat : String) : Bool := decide (pat.data <:+: s.data)

/-- Go `singleSelectModel` (forms.go): option titles, selected index,
cursor index. -/
structure SelectModel where
  options : List String
  selected : Nat
  cursor : Nat
deriving DecidableEq, Repr

/-- Go `singleSelectModel.GetSelected` (forms.go): the selected title if
the index is in bounds, `""` otherwise. -/
def SelectModel.getSelected (sm : SelectModel) : String :=
  sm.options.getD sm.selected ""

/-- Go `singleSelectModel.Update` (forms.go). -/
def selectUpdate (sm : SelectModel) (s : String) : SelectModel :=
  if s = "up" ∨ s = "k" then
    if sm.cursor > 0 then { sm with cursor := sm.cursor - 1 } else sm
  else if s = "down" ∨ s = "j" then
    if sm.cursor < sm.options.length - 1 then { sm with cursor := sm.cursor + 1 } else sm
  else if s = " " ∨ s = "enter" then { sm with selected := sm.cursor }
  else sm

/-- Go `confirmModel.Update` (forms.go): `y`/`Y` choose yes, `n`/`N`
choose no, anything else keeps the current choice. -/
def confirmUpdate (choice : String) (s : String) : String :=
  if s = "y" ∨ s = "Y" then "yes"
  else if s = "n" ∨ s = "N" then "no"
  else choice

/-- The bubbletea text-input update restricted to what the claims need:
a one-character key message inserts its rune at the end of the buffer,
special (multi-character) key strings leave the buffer unchanged. -/
def textUpdate (v : String) (s : String) : String :=
  if s.length = 1 then v ++ s else v

/-- Go `Model` (main.go): the wizard state. -/
structure WizModel where
  step : Step
  projectName : String
  modulePath : String
  outputDir : String
  databaseSelect : SelectModel
  awsProfileSelect : SelectModel
  awsAccessKeyID : String
  awsSecretKey : String
  awsRegion : String
  awsProfileName : String
  frameworkSelect : SelectModel
  deployChoice : String
  generating : Bool
  deploying : Bool
  deployEnabled : Bool
  err : Option String
deriving DecidableEq, Repr

/-- External AWS profile boundary: `loadAWSCredentialsFromProfile`
(main.go) returns `(accessKeyID, secretKey, region)`, empty strings on
failure. -/
structure CredsEnv where
  load : String → String × String × String

/-- A credentials environment whose every lookup fails (returns empties). -/
def trivialCredsEnv : CredsEnv := ⟨fun _ => ("", "", "")⟩

/-- Go `NewModel` (main.go): initial wizard state.  Text values start
empty (the suggested names are placeholders, not values); the select
widgets carry the literal option lists of `NewModel`; `awsProfiles` is the
profile list read from `~/.aws` (always headed by `"default"`). -/
def initWizModel (awsProfiles : List String) : WizModel where
  step := .welcome
  projectName := ""
  modulePath := ""
  outputDir := ""
  databaseSelect := ⟨["DynamoDB", "PostgreSQL"], 0, 0⟩
  awsProfileSelect := ⟨"default" :: awsProfiles, 0, 0⟩
  awsAccessKeyID := ""
  awsSecretKey := ""
  awsRegion := ""
  awsProfileName := ""
  frameworkSelect := ⟨["ConnectRPC", "Chi"], 0, 0⟩
  deployChoice := "no"
  generating := false
  deploying := false
  deployEnabled := false
  err := none

/-- The messages processed by `Model.Update` (main.go): key events,
spinner ticks, and the three asynchronous completion messages. -/
inductive WizMsg
  | key (s : String)
  | tick
  | generationComplete (shouldDeploy : Bool) (outputDir projectName : String)
  | generationError (e : String)
  | deploymentComplete (success : Bool) (e : Option String)
deriving DecidableEq, Repr

/-- The command returned by `Model.Update`: nothing, `tea.Quit`, the
generation unit of work (`m.generate()`), or the deployment unit of work
(`m.deploy(...)`).  Spinner ticks bundled via `tea.Batch` are immaterial
and omitted. -/
inductive WizCmd
  | none | quit | launchGenerate | launchDeploy
deriving DecidableEq, Repr

/-- Go `Model.Update` (main.go), transcribed case for case.

* `ctrl+c`/`q` return the model unchanged with `tea.Quit` before any
  step-specific handling;
* `esc` decrements the numeric step when above `StepWelcome` and then
  falls through to the (decremented) step's handler with the same
  message;
* each step handler first lets its widget consume the message, then acts
  on `enter` subject to non-emptiness/selection checks;
* the asynchronous completion messages are handled independently of the
  current step. -/
def wizUpdate (env : CredsEnv) (m : WizModel) (msg : WizMsg) : WizModel × WizCmd :=
  match msg with
  | .key s =>
    if s = "ctrl+c" ∨ s = "q" then (m, .quit)
    else
      let m := if s = "esc" ∧ m.step.idx > 0 then { m with step := Step.ofIdx (m.step.idx - 1) } else m
      match m.step with
      | .welcome =>
        (if s = "enter" then { m with step := .projectName } else m, .none)
      | .projectName =>
        let m := { m with projectName := textUpdate m.projectName s }
        if s = "enter" ∧ m.projectName ≠ "" then
          -- Set default output dir / module path if still empty or default
          let m := if m.outputDir = "" ∨ m.outputDir = "./postservice" then
              { m with outputDir := "./" ++ m.projectName } else m
          let m := if m.modulePath = "" ∨ m.modulePath = "github.com/user/postservice" then
              { m with modulePath := "github.com/user/" ++ m.projectName } else m
          ({ m with step := .modulePath }, .none)
        else (m, .none)
      | .modulePath =>
        let m := { m with modulePath := textUpdate m.modulePath s }
        if s = "enter" ∧ m.modulePath ≠ "" then ({ m with step := .outputDir }, .none)
        else (m, .none)
      | .outputDir =>
        let m := { m with outputDir := textUpdate m.outputDir s }
        if s = "enter" ∧ m.outputDir ≠ "" then ({ m with step := .databaseSelection }, .none)
        else (m, .none)
      | .databaseSelection =>
        let m := { m with databaseSelect := selectUpdate m.databaseSelect s }
        if s = "enter" ∧ m.databaseSelect.getSelected ≠ "" then
          if strContains m.databaseSelect.getSelected "DynamoDB" then
            ({ m with step := .awsProfileSelection }, .none)
          else
            -- Skip AWS credentials for PostgreSQL
            ({ m with step := .frameworkSelection }, .none)
        else (m, .none)
      | .awsProfileSelection =>
        let m := { m with awsProfileSelect := selectUpdate m.awsProfileSelect s }
        if s = "enter" ∧ m.awsProfileSelect.getSelected ≠ "" then
          let prof := m.awsProfileSelect.getSelected
          let creds := env.load prof
          let m := { m with awsProfileName := prof }
          let m := if creds.1 ≠ "" then { m with awsAccessKeyID := creds.1 } else m
          let m := if creds.2.1 ≠ "" then { m with awsSecretKey := creds.2.1 } else m
          let m := if creds.2.2 ≠ "" then { m with awsRegion := creds.2.2 } else m
          ({ m with step := .awsAccessKeyID }, .none)
        else (m, .none)
      | .awsAccessKeyID =>
        let m := { m with awsAccessKeyID := textUpdate m.awsAccessKeyID s }
        if s = "enter" ∧ m.awsAccessKeyID ≠ "" then ({ m with step := .awsSecretKey }, .none)
        else (m, .none)
      | .awsSecretKey =>
        let m := { m with awsSecretKey := textUpdate m.awsSecretKey s }
        if s = "enter" ∧ m.awsSecretKey ≠ "" then ({ m with step := .awsRegion }, .none)
        else (m, .none)
      | .awsRegion =>
        let m := { m with awsRegion := textUpdate m.awsRegion s }
        if s = "enter" ∧ m.awsRegion ≠ "" then ({ m with step := .frameworkSelection }, .none)
        else (m, .none)
      | .frameworkSelection =>
        let m := { m with frameworkSelect := selectUpdate m.frameworkSelect s }
        if s = "enter" ∧ m.frameworkSelect.getSelected ≠ "" then
          ({ m with step := .deploySelection }, .none)
        else (m, .none)
      | .deploySelection =>
        let m := { m with deployChoice := confirmUpdate m.deployChoice s }
        if s = "enter" then ({ m with step := .review }, .none) else (m, .none)
      | .review =>
        if s = "enter" then
          ({ m with step := .generating, generating := true }, .launchGenerate)
        else (m, .none)
      | .generating => (m, .none)
      | .complete =>
        if s = "enter" then (m, .quit) else (m, .none)
  | .tick => (m, .none)
  | .generationComplete shouldDeploy _ _ =>
    if shouldDeploy then
      ({ m with step := .generating, generating := true, deploying := true }, .launchDeploy)
    else
      ({ m with step := .complete, generating := false }, .none)
  | .generationError e =>
    ({ m with err := some e, generating := false }, .none)
  | .deploymentComplete _ e =>
    let m := { m with step := .complete, generating := false, deploying := false }
    (match e with
     | some err => { m with err := some err }
     | none => m, .none)

/-- Folding a message sequence through `Model.Update` (the bubbletea event
loop delivering messages one at a time). -/
def wizRun (env : CredsEnv) : WizModel → List WizMsg → WizModel
  | m, [] => m
  | m, msg :: rest => wizRun env (wizUpdate env m msg).1 rest

/-- Go `Model.generate` (main.go): the `ProjectConfig` the wizard builds
before invoking the generation engine.  `Deploy` is the literal `true`
(source comment: `// Always generate deployment files`); the database and
framework types are mapped from the selected option titles by
`strings.Contains`, with the Go zero value `""` when neither matches. -/
def wizardProjectConfig (m : WizModel) : ProjectConfig :=
  let dbType :=
    if strContains m.databaseSelect.getSelected "PostgreSQL" then DatabaseTypePostgres
    else if strContains m.databaseSelect.getSelected "DynamoDB" then DatabaseTypeDynamoDB
    else ""
  let frameworkType :=
    if strContains m.frameworkSelect.getSelected "Chi" then FrameworkTypeChi
    else if strContains m.frameworkSelect.getSelected "ConnectRPC" then FrameworkTypeConnectRPC
    else ""
  { projectName := m.projectName
    modulePath := m.modulePath
    outputDir := m.outputDir
    database := { type := dbType
                  awsAccessKeyID := m.awsAccessKeyID
                  awsSecretKey := m.awsSecretKey
                  awsRegion := m.awsRegion }
    framework := frameworkType
    deploy := true }

/-- The `ProjectConfig` built by the non-interactive `createCmd` CLI path:
`Deploy` comes from the `--deploy` flag (default `false`); only the
database type is populated in `DatabaseConfig`. -/
def cliProjectConfig (projectName modulePath outputDir driver framework : String)
    (deploy : Bool) : ProjectConfig :=
  { projectName := projectName
    modulePath := modulePath
    outputDir := outputDir
    database := { type := driver }
    framework := framework
    deploy := deploy }

/-! ## Concrete configurations used by witnesses and counterexamples -/

/-- The spec's Scenario A configuration: Postgres, Chi, no deployment. -/
def scenarioAConfig : ProjectConfig where
  projectName := "blog"
  modulePath := "github.com/user/blog"
  outputDir := "./blog"
  database := { type := "postgres" }
  framework := "chi"
  deploy := false

/-- A configuration whose database and framework strings are the Go zero
value `""` (representable because `DatabaseType`/`FrameworkType` are Go
string types). -/
def zeroSwitchConfig : ProjectConfig where
  projectName := "blog"
  modulePath := "github.com/user/blog"
  outputDir := "./blog"
  database := { type := "" }
  framework := ""
  deploy := false

/-! ## C1 -/

/-- C1: for every valid `ProjectConfig`, the plan produced by
`getFileGenerationRules` is deterministic: two evaluations with equal
configurations yield the identical rule list, hence the identical ordered
list of `(outputPath, templatePath)` entries, with identical output paths
and identical source template references.  The embedding makes
`getFileGenerationRules` a pure function of the configuration, faithful to
the Go source, which reads no other state and iterates no map. -/
theorem C1_plan_deterministic (c₁ c₂ : ProjectConfig) (h : c₁ = c₂) :
    getFileGenerationRules c₁ = getFileGenerationRules c₂ ∧
    planMappings c₁ = planMappings c₂ ∧ planPaths c₁ = planPaths c₂ := by
  subst h
  exact ⟨rfl, rfl, rfl⟩

/-- Witness for C1 at the Scenario A configuration. -/
theorem C1_plan_deterministic_witness :
    scenarioAConfig = scenarioAConfig ∧
    planMappings scenarioAConfig = planMappings scenarioAConfig :=
  ⟨rfl, (C1_plan_deterministic scenarioAConfig scenarioAConfig rfl).2.1⟩

/-! ## C7 -/

/-- Association-list lookup misses every key outside the key column. -/
theorem lookup_eq_none_of_not_mem_keys :
    ∀ (l : List (String × String)) (s : String),
      s ∉ l.map Prod.fst → l.lookup s = none := by
  intro l
  induction l with
  | nil => intro s _; rfl
  | cons kv tl ih =>
    obtain ⟨k, v⟩ := kv
    intro s hs
    simp only [List.map_cons, List.mem_cons] at hs
    push_neg at hs
    obtain ⟨h1, h2⟩ := hs
    have hbeq : (s == k) = false := beq_eq_false_iff_ne.mpr h1
    simp [List.lookup, hbeq, ih s h2]

/-- C7: `awsRegionToFlyRegion` is a total pure function: every input in
the static table maps to the table's Fly region, and every input outside
the table's key set maps to the documented default `"iad"`; there is no
error value in its type. -/
theorem C7_awsRegionToFlyRegion_total :
    (∀ a f, (a, f) ∈ regionMap → awsRegionToFlyRegion a = f) ∧
    (∀ s, s ∉ regionMap.map Prod.fst → awsRegionToFlyRegion s = "iad") := by
  constructor
  · intro a f h
    simp only [regionMap] at h
    fin_cases h <;> rfl
  · intro s hs
    unfold awsRegionToFlyRegion
    rw [lookup_eq_none_of_not_mem_keys regionMap s hs]

/-- Witness for C7: the mapped region for `"eu-west-1"` and the default
for the unknown region `"xx-unknown-1"` (the spec's Scenario C). -/
theorem C7_awsRegionToFlyRegion_total_witness :
    (("eu-west-1", "ams") ∈ regionMap ∧ awsRegionToFlyRegion "eu-west-1" = "ams") ∧
    ("xx-unknown-1" ∉ regionMap.map Prod.fst ∧
      awsRegionToFlyRegion "xx-unknown-1" = "iad") :=
  ⟨⟨by decide, C7_awsRegionToFlyRegion_total.1 "eu-west-1" "ams" (by decide)⟩,
   ⟨by decide, C7_awsRegionToFlyRegion_total.2 "xx-unknown-1" (by decide)⟩⟩

/-! ## C8 -/

/-- Every rule in the table carries either no condition or the
deployment-files condition, whose closure always returns `true`; hence the
active plan is the concatenation of the files of all selected rules. -/
theorem planMappings_eq_flat (g : ProjectConfig) :
    planMappings g = (getFileGenerationRules g).flatMap (fun r => r.files) := by
  have hcongr : ∀ rs : List fileGenerationRule,
      (∀ r ∈ rs, r.condition = none ∨ r.condition = some (fun _ => true)) →
      (rs.flatMap fun r =>
        match r.condition with
        | none => r.files
        | some c => if c g then r.files else []) = rs.flatMap (fun r => r.files) := by
    intro rs h
    induction rs with
    | nil => rfl
    | cons r tl ih =>
      simp only [List.flatMap_cons]
      rw [ih (fun r' hr' => h r' (List.mem_cons_of_mem _ hr'))]
      rcases h r (List.mem_cons_self r tl) with hc | hc <;> simp [hc]
  unfold planMappings
  apply hcongr
  intro r hr
  unfold getFileGenerationRules at hr
  simp only [List.append_assoc, List.mem_append] at hr
  rcases hr with hr | hr | hr | hr | hr
  · fin_cases hr
    · exact Or.inl rfl
    · exact Or.inl rfl
    · exact Or.inl rfl
    · exact Or.inl rfl
  · split at hr
    · simp only [List.mem_singleton] at hr; subst hr; exact Or.inl rfl
    · exact absurd hr (List.not_mem_nil r)
  · split at hr
    · simp only [List.mem_singleton] at hr; subst hr; exact Or.inl rfl
    · split at hr
      · simp only [List.mem_singleton] at hr; subst hr; exact Or.inl rfl
      · exact absurd hr (List.not_mem_nil r)
  · split at hr
    · simp only [List.mem_singleton] at hr; subst hr; exact Or.inl rfl
    · split at hr
      · simp only [List.mem_singleton] at hr; subst hr; exact Or.inl rfl
      · exact absurd hr (List.not_mem_nil r)
  · split at hr
    · simp only [List.mem_singleton] at hr; subst hr; exact Or.inr rfl
    · exact absurd hr (List.not_mem_nil r)

/-- C8: for every configuration, the output paths of the active rules are
pairwise distinct; in particular `docker-compose.yml` and `.env.local`,
which occur in both database branches, occur at most once because the
branches are mutually exclusive. -/
theorem C8_plan_outputPaths_nodup (g : ProjectConfig) : (planPaths g).Nodup := by
  obtain ⟨pn, mp, od, ⟨ty, ak, sk, rg⟩, fw, dep⟩ := g
  unfold planPaths
  rw [planMappings_eq_flat]
  simp only [getFileGenerationRules]
  dsimp only
  rcases eq_or_ne ty DatabaseTypePostgres with h2 | h2
  · subst h2
    rcases eq_or_ne fw FrameworkTypeChi with h4 | h4
    · subst h4; cases dep <;> decide
    · rcases eq_or_ne fw FrameworkTypeConnectRPC with h5 | h5
      · subst h5; cases dep <;> decide
      · rw [if_neg h4, if_neg h5]; cases dep <;> decide
  · rcases eq_or_ne ty DatabaseTypeDynamoDB with h3 | h3
    · subst h3
      rcases eq_or_ne fw FrameworkTypeChi with h4 | h4
      · subst h4; cases dep <;> decide
      · rcases eq_or_ne fw FrameworkTypeConnectRPC with h5 | h5
        · subst h5; cases dep <;> decide
        · rw [if_neg h4, if_neg h5]; cases dep <;> decide
    · rw [if_neg h2, if_neg h3]
      rcases eq_or_ne fw FrameworkTypeChi with h4 | h4
      · subst h4; cases dep <;> decide
      · rcases eq_or_ne fw FrameworkTypeConnectRPC with h5 | h5
        · subst h5; cases dep <;> decide
        · rw [if_neg h4, if_neg h5]; cases dep <;> decide

/-! ## C2 -/

/-- `rule`'s file mappings are all contained in the plan of `g`: the
database-specific or framework-specific "rule subset is present". -/
def hasSubset (rule : fileGenerationRule) (g : ProjectConfig) : Prop :=
  ∀ f ∈ rule.files, f ∈ planMappings g

instance (rule : fileGenerationRule) (g : ProjectConfig) :
    Decidable (hasSubset rule g) := by
  unfold hasSubset
  infer_instance

/-- C2 counterexample: for the configuration whose `Database.Type` and
`Framework` strings are the Go zero value `""` (representable since both
are Go string types and `Generate` validates nothing), the plan contains
NEITHER database-specific rule subset and NEITHER framework-specific rule
subset: the claim's "never neither" fails because the Go `switch`
statements have no `default` branch. -/
theorem C2_counterexample :
    ¬ hasSubset postgresRule zeroSwitchConfig ∧
    ¬ hasSubset dynamoRule zeroSwitchConfig ∧
    ¬ hasSubset chiRule zeroSwitchConfig ∧
    ¬ hasSubset connectRule zeroSwitchConfig := by decide

/-- C2 amended: for every configuration whose database type is one of the
two named constants and whose framework is one of the two named constants
(the spec's data-model invariant), the plan contains exactly one
database-specific rule subset and exactly one framework-specific rule
subset — never both, never neither. -/
theorem C2_db_fw_branch_exclusive (g : ProjectConfig)
    (hdb : g.database.type = DatabaseTypePostgres ∨
      g.database.type = DatabaseTypeDynamoDB)
    (hfw : g.framework = FrameworkTypeChi ∨ g.framework = FrameworkTypeConnectRPC) :
    (hasSubset postgresRule g ↔ ¬ hasSubset dynamoRule g) ∧
    (hasSubset chiRule g ↔ ¬ hasSubset connectRule g) := by
  obtain ⟨pn, mp, od, ⟨ty, ak, sk, rg⟩, fw, dep⟩ := g
  simp only at hdb hfw
  simp only [hasSubset, planMappings_eq_flat, getFileGenerationRules]
  dsimp only
  rcases hdb with h2 | h2 <;> rcases hfw with h4 | h4 <;> subst h2 <;> subst h4 <;>
    cases dep <;> decide

/-- Witness for the amended C2 at the Scenario A configuration. -/
theorem C2_db_fw_branch_exclusive_witness :
    (scenarioAConfig.database.type = DatabaseTypePostgres ∨
      scenarioAConfig.database.type = DatabaseTypeDynamoDB) ∧
    (scenarioAConfig.framework = FrameworkTypeChi ∨
      scenarioAConfig.framework = FrameworkTypeConnectRPC) ∧
    ((hasSubset postgresRule scenarioAConfig ↔ ¬ hasSubset dynamoRule scenarioAConfig) ∧
     (hasSubset chiRule scenarioAConfig ↔ ¬ hasSubset connectRule scenarioAConfig)) :=
  ⟨by decide, by decide,
   C2_db_fw_branch_exclusive scenarioAConfig (by decide) (by decide)⟩

/-! ## C3 -/

/-- The `PROJECT_NAME` assignment line of the deploy-script template
(`templates/scripts/deploy.sh.tmpl`), a real catalog content containing
the project-name placeholder. -/
def deployShLine : List Char :=
  "PROJECT_NAME=\x22$\x7bPROJECT_NAME:-postservice\x7d\x22".data

/-- C3 counterexample: with the user-chosen project name equal to
`"postservice"` (a non-empty value the wizard accepts — indeed the
suggested default name), the substitution pass is the identity on the
placeholder, so the emitted content of the deploy script still contains
the placeholder project name. -/
theorem C3_counterexample :
    PlaceholderProjectName <:+:
      substitutePlaceholders deployShLine
        "github.com/user/myapi".data "postservice".data := by decide

/-- C3 amended: for every content and module path, and every project name
that does not contain the placeholder `"postservice"`, is not a substring
of it, does not begin with one of its non-empty suffixes and does not end
with one of its non-empty prefixes (each condition is forced by a concrete
counterexample, e.g. project names `"postservice"`, `"s"`, `"eggs"`,
`"myapp"` respectively), the substitution pass eliminates every occurrence
of the placeholder project name, and with it every occurrence of the
placeholder module path `github.com/acme/postservice`. -/
theorem C3_placeholders_eliminated (content modulePath projectName : List Char)
    (h1 : ¬ PlaceholderProjectName <:+: projectName)
    (h2 : ¬ projectName <:+: PlaceholderProjectName)
    (h3 : ∀ y ∈ projectName.inits, y ≠ [] → ¬ y <:+ PlaceholderProjectName)
    (h4 : ∀ x ∈ projectName.tails, x ≠ [] → ¬ x <+: PlaceholderProjectName) :
    ¬ PlaceholderProjectName <:+:
        substitutePlaceholders content modulePath projectName ∧
    ¬ PlaceholderModulePath <:+:
        substitutePlaceholders content modulePath projectName := by
  simp only [substitutePlaceholders, replaceProjectName]
  have hmain := replaceAll_no_occurrence PlaceholderProjectName projectName h1 h2 h3 h4
    (replaceModulePath content modulePath)
  refine ⟨hmain, fun hcon => hmain ?_⟩
  have hsub : PlaceholderProjectName <:+: PlaceholderModulePath := by decide
  exact hsub.trans hcon

/-- Witness for the amended C3: project name `"myapi"` on the deploy
script's placeholder line. -/
theorem C3_placeholders_eliminated_witness :
    ((¬ PlaceholderProjectName <:+: "myapi".data) ∧
     (¬ "myapi".data <:+: PlaceholderProjectName) ∧
     (∀ y ∈ "myapi".data.inits, y ≠ [] → ¬ y <:+ PlaceholderProjectName) ∧
     (∀ x ∈ "myapi".data.tails, x ≠ [] → ¬ x <+: PlaceholderProjectName)) ∧
    (¬ PlaceholderProjectName <:+:
        substitutePlaceholders deployShLine "github.com/user/myapi".data "myapi".data ∧
     ¬ PlaceholderModulePath <:+:
        substitutePlaceholders deployShLine "github.com/user/myapi".data "myapi".data) :=
  ⟨⟨by decide, by decide, by decide, by decide⟩,
   C3_placeholders_eliminated deployShLine "github.com/user/myapi".data "myapi".data
     (by decide) (by decide) (by decide) (by decide)⟩

/-! ## C6 -/

/-- `generateFiles` distributes over concatenation: the second half runs
only if the first half finished without error. -/
theorem generateFiles_append (env : FSEnv) (a b : List fileMapping) :
    generateFiles env (a ++ b) =
      match generateFiles env a with
      | (ws, some e) => (ws, some e)
      | (ws, none) => (ws ++ (generateFiles env b).1, (generateFiles env b).2) := by
  induction a with
  | nil => simp [generateFiles]
  | cons f rest ih =>
    simp only [List.cons_append, generateFiles]
    cases hpf : processFile env f with
    | some e => simp
    | none =>
      simp only [List.append_eq]
      rw [ih]
      cases hgf : generateFiles env rest with
      | mk ws e => cases e <;> simp

/-- The per-rule loop of `Generate` processes exactly the flattened active
plan. -/
theorem runRules_eq_generateFiles (env : FSEnv) (g : ProjectConfig) :
    ∀ rules : List fileGenerationRule,
      runRules env g rules =
        generateFiles env (rules.flatMap fun r =>
          match r.condition with
          | none => r.files
          | some c => if c g then r.files else []) := by
  intro rules
  induction rules with
  | nil => rfl
  | cons r rest ih =>
    simp only [runRules, List.flatMap_cons]
    rw [generateFiles_append, ih]

/-- A file whose source read (or template load) and directory creation
succeed but whose write fails produces exactly the write error naming its
output path. -/
theorem processFile_writeError (env : FSEnv) (f : fileMapping)
    (hr : env.readOk f.templatePath = true)
    (htl : env.templateOk f.templatePath = true)
    (hm : env.mkdirOk f.outputPath = true)
    (hw : env.writeOk f.outputPath = false) :
    processFile env f = some (GenError.writeError f.outputPath) := by
  unfold processFile copyFile generateFile
  split <;> simp [hr, htl, hm, hw]

/-- If the first `k-1` files of a mapping list process cleanly and the
`k`-th file's write fails, `generateFiles` writes exactly the first `k-1`
output paths, writes none of the later files, and returns the write error
naming the `k`-th file's output path. -/
theorem generateFiles_write_abort (env : FSEnv) (pre post : List fileMapping)
    (f : fileMapping)
    (hpre : ∀ f' ∈ pre, processFile env f' = none)
    (hr : env.readOk f.templatePath = true)
    (htl : env.templateOk f.templatePath = true)
    (hm : env.mkdirOk f.outputPath = true)
    (hw : env.writeOk f.outputPath = false) :
    generateFiles env (pre ++ f :: post) =
      (pre.map (·.outputPath), some (GenError.writeError f.outputPath)) := by
  induction pre with
  | nil =>
    simp only [List.nil_append, generateFiles,
      processFile_writeError env f hr htl hm hw, List.map_nil]
  | cons f' rest ih =>
    have h1 : processFile env f' = none := hpre f' (List.mem_cons_self f' rest)
    have h2 := ih (fun x hx => hpre x (List.mem_cons_of_mem _ hx))
    simp only [List.cons_append, generateFiles, h1, List.append_eq, h2, List.map_cons]

/-- C6: for every run whose plan splits as `pre ++ f :: post` where each
file of `pre` processes cleanly and `f`'s write fails (its source read /
template load and directory creation succeeding), `Generate` aborts
immediately: exactly the output paths of `pre` are written, none of
`f :: post` is written, and the returned error is the write error naming
`f`'s output path. -/
theorem C6_Generate_write_abort (env : FSEnv) (g : ProjectConfig)
    (pre post : List fileMapping) (f : fileMapping)
    (hout : env.mkdirOk g.outputDir = true)
    (hdirs : (createDirectoryStructure g).all env.mkdirOk = true)
    (hplan : planMappings g = pre ++ f :: post)
    (hpre : ∀ f' ∈ pre, processFile env f' = none)
    (hr : env.readOk f.templatePath = true)
    (htl : env.templateOk f.templatePath = true)
    (hm : env.mkdirOk f.outputPath = true)
    (hw : env.writeOk f.outputPath = false) :
    Generate env g =
      (pre.map (·.outputPath), some (GenError.writeError f.outputPath)) := by
  unfold Generate
  rw [if_neg (by simp [hout]), if_neg (by simp [hdirs]),
    runRules_eq_generateFiles]
  have hfl : ((getFileGenerationRules g).flatMap fun r =>
      match r.condition with
      | none => r.files
      | some c => if c g then r.files else []) = planMappings g := rfl
  rw [hfl, hplan]
  exact generateFiles_write_abort env pre post f hpre hr htl hm hw

/-- Witness for C6: the Scenario A run with a filesystem whose write of
the third planned file (`Makefile`) fails; the first two output paths are
written, the remainder are not, and the error names `Makefile`. -/
theorem C6_Generate_write_abort_witness :
    ((createDirectoryStructure scenarioAConfig).all
        (FSEnv.mk (fun _ => true) (fun _ => true) (fun _ => true)
          (fun p => p != "Makefile")).mkdirOk = true) ∧
    planMappings scenarioAConfig =
      (planMappings scenarioAConfig).take 2 ++
        ⟨"Makefile", "templates/Makefile.tmpl"⟩ :: (planMappings scenarioAConfig).drop 3 ∧
    (∀ f' ∈ (planMappings scenarioAConfig).take 2,
        processFile ⟨fun _ => true, fun _ => true, fun _ => true,
          fun p => p != "Makefile"⟩ f' = none) ∧
    Generate ⟨fun _ => true, fun _ => true, fun _ => true,
        fun p => p != "Makefile"⟩ scenarioAConfig =
      (((planMappings scenarioAConfig).take 2).map (·.outputPath),
        some (GenError.writeError "Makefile")) :=
  ⟨by decide, by decide, by decide,
   C6_Generate_write_abort
     ⟨fun _ => true, fun _ => true, fun _ => true, fun p => p != "Makefile"⟩
     scenarioAConfig ((planMappings scenarioAConfig).take 2)
     ((planMappings scenarioAConfig).drop 3)
     ⟨"Makefile", "templates/Makefile.tmpl"⟩ (by decide) (by decide) (by decide)
     (by decide) (by decide) (by decide) (by decide) (by decide)⟩

/-! ## C4 -/

/-- The steps visited along a message trace, in order. -/
def wizStepsVisited (env : CredsEnv) : WizModel → List WizMsg → List Step
  | m, [] => [m.step]
  | m, msg :: rest => m.step :: wizStepsVisited env (wizUpdate env m msg).1 rest

/-- Key trace of a Postgres run up to FrameworkSelection: Welcome, type
`a` as project name, accept the derived module path and output directory,
move the cursor to PostgreSQL, confirm.  (PostgreSQL skips the four AWS
sub-steps.) -/
def postgresTrace : List WizMsg :=
  [.key "enter", .key "a", .key "enter", .key "enter", .key "enter",
   .key "down", .key "enter"]

/-- C4, evaluated at the failing input: the Postgres run reaches
FrameworkSelection without ever visiting an AWS sub-step, yet one back
action (`esc`) moves the wizard to AWSRegion — the numerically preceding
step — and not to the previously visited DatabaseSelection; at Welcome,
back is a no-op as claimed. -/
theorem C4_back_navigation_evaluation :
    (wizRun trivialCredsEnv (initWizModel []) postgresTrace).step =
      Step.frameworkSelection ∧
    Step.awsRegion ∉ wizStepsVisited trivialCredsEnv (initWizModel []) postgresTrace ∧
    Step.databaseSelection ∈
      wizStepsVisited trivialCredsEnv (initWizModel []) postgresTrace ∧
    (wizUpdate trivialCredsEnv
        (wizRun trivialCredsEnv (initWizModel []) postgresTrace)
        (.key "esc")).1.step = Step.awsRegion ∧
    Step.awsRegion ≠ Step.databaseSelection ∧
    (wizUpdate trivialCredsEnv (initWizModel []) (.key "esc")).1 = initWizModel [] := by
  decide

/-! ## C9 -/

/-- Continuation of the Postgres run: select Chi, answer `n` (no) to the
deploy-now question, confirm the review.  The run ends in the Generating
step having launched generation. -/
def pgChiNoDeployTrace : List WizMsg :=
  postgresTrace ++ [.key "down", .key "enter", .key "n", .key "enter", .key "enter"]

/-- The wizard state of a completed Postgres/Chi run in which the user
answered "no" to deploy-now. -/
def wizNoDeployModel : WizModel :=
  wizRun trivialCredsEnv (initWizModel []) pgChiNoDeployTrace

/-- C9 counterexample: for the same user choices (project `a`, module
`github.com/user/a`, output `./a`, Postgres, Chi, deployment not
requested), the wizard path builds its configuration with `Deploy = true`
and its plan contains the deployment manifest `fly.toml`, while the CLI
path with the defaulted `--deploy=false` flag does not: the two paths do
not produce the same plan. -/
theorem C9_counterexample :
    wizNoDeployModel.deployChoice = "no" ∧
    (wizardProjectConfig wizNoDeployModel).deploy = true ∧
    "fly.toml" ∈ planPaths (wizardProjectConfig wizNoDeployModel) ∧
    "fly.toml" ∉
      planPaths (cliProjectConfig "a" "github.com/user/a" "./a" "postgres" "chi" false) ∧
    planPaths (wizardProjectConfig wizNoDeployModel) ≠
      planPaths (cliProjectConfig "a" "github.com/user/a" "./a" "postgres" "chi" false) := by
  decide

/-- The plan depends on the configuration only through the deploy flag,
the database type and the framework. -/
theorem planPaths_congr (c₁ c₂ : ProjectConfig) (h1 : c₁.deploy = c₂.deploy)
    (h2 : c₁.database.type = c₂.database.type) (h3 : c₁.framework = c₂.framework) :
    planPaths c₁ = planPaths c₂ := by
  unfold planPaths
  rw [planMappings_eq_flat, planMappings_eq_flat]
  unfold getFileGenerationRules
  rw [h1, h2, h3]

/-- The deployment manifest is planned exactly when the deploy flag is
set. -/
theorem flyToml_mem_iff (g : ProjectConfig) :
    "fly.toml" ∈ planPaths g ↔ g.deploy = true := by
  obtain ⟨pn, mp, od, ⟨ty, ak, sk, rg⟩, fw, dep⟩ := g
  unfold planPaths
  rw [planMappings_eq_flat]
  simp only [getFileGenerationRules]
  dsimp only
  rcases eq_or_ne ty DatabaseTypePostgres with h2 | h2
  · subst h2
    rcases eq_or_ne fw FrameworkTypeChi with h4 | h4
    · subst h4; cases dep <;> decide
    · rcases eq_or_ne fw FrameworkTypeConnectRPC with h5 | h5
      · subst h5; cases dep <;> decide
      · rw [if_neg h4, if_neg h5]; cases dep <;> decide
  · rcases eq_or_ne ty DatabaseTypeDynamoDB with h3 | h3
    · subst h3
      rcases eq_or_ne fw FrameworkTypeChi with h4 | h4
      · subst h4; cases dep <;> decide
      · rcases eq_or_ne fw FrameworkTypeConnectRPC with h5 | h5
        · subst h5; cases dep <;> decide
        · rw [if_neg h4, if_neg h5]; cases dep <;> decide
    · rw [if_neg h2, if_neg h3]
      rcases eq_or_ne fw FrameworkTypeChi with h4 | h4
      · subst h4; cases dep <;> decide
      · rcases eq_or_ne fw FrameworkTypeConnectRPC with h5 | h5
        · subst h5; cases dep <;> decide
        · rw [if_neg h4, if_neg h5]; cases dep <;> decide

/-- C9 amended: the wizard's `generate()` hardcodes `Deploy = true`, so
for every wizard state the wizard's plan equals the CLI plan for the same
database/framework choice *with* `--deploy` set; the CLI plan without
`--deploy` never contains the deployment manifest, while the wizard plan
always does — the two paths agree exactly when the CLI is invoked with
`--deploy`. -/
theorem C9_wizard_cli_agreement (m : WizModel) (n mp od drv fw : String) :
    (wizardProjectConfig m).deploy = true ∧
    planPaths (wizardProjectConfig m) =
      planPaths (cliProjectConfig n mp od
        (wizardProjectConfig m).database.type (wizardProjectConfig m).framework true) ∧
    "fly.toml" ∈ planPaths (wizardProjectConfig m) ∧
    "fly.toml" ∉ planPaths (cliProjectConfig n mp od drv fw false) := by
  refine ⟨rfl, planPaths_congr _ _ rfl rfl rfl, (flyToml_mem_iff _).mpr rfl, ?_⟩
  intro hmem
  have hfalse := (flyToml_mem_iff _).mp hmem
  simp [cliProjectConfig] at hfalse

/-! ## C5 -/

/-- C5 counterexample: in a run that launched generation (the Generating
step), delivering the engine's error message leaves the state machine in
the Generating step — it does not transition to Complete.  (The failure
view is rendered because `View` selects on the stored error, not on the
step.) -/
theorem C5_counterexample :
    wizNoDeployModel.step = Step.generating ∧
    (wizUpdate trivialCredsEnv wizNoDeployModel
        (.generationError "generation failed")).1.step = Step.generating ∧
    Step.generating ≠ Step.complete := by decide

set_option maxHeartbeats 2000000 in
/-- C5 amended: on a generation error the wizard stores the error and
clears the generating flag but keeps its current step (it does not move to
Complete); the update returns no command, and the only transition of the
whole machine that launches generation is pressing enter at the Review
step — a failed generation is never re-launched by the wizard itself. -/
theorem C5_generation_error_behaviour (env : CredsEnv) (m : WizModel) (e : String) :
    (wizUpdate env m (.generationError e)).1 =
      { m with err := some e, generating := false } ∧
    (wizUpdate env m (.generationError e)).2 = WizCmd.none ∧
    (∀ m' msg, (wizUpdate env m' msg).2 = WizCmd.launchGenerate →
      m'.step = Step.review ∧ msg = WizMsg.key "enter") := by
  refine ⟨rfl, rfl, ?_⟩
  intro m' msg h
  cases msg with
  | tick => simp [wizUpdate] at h
  | generationComplete sd od pn => by_cases hsd : sd <;> simp [wizUpdate, hsd] at h
  | generationError e' => simp [wizUpdate] at h
  | deploymentComplete su e' => cases e' <;> simp [wizUpdate] at h
  | key s =>
    simp only [wizUpdate] at h
    repeat' split at h
    all_goals simp_all

/-- The wizard state at the Review step of the Postgres/Chi no-deploy
run (one confirmation short of launching generation). -/
def reviewModel : WizModel :=
  wizRun trivialCredsEnv (initWizModel [])
    (postgresTrace ++ [.key "down", .key "enter", .key "n", .key "enter"])

/-- Witness for the amended C5: a concrete error delivery in the
Generating step, and the Review-step enter press as the unique
generation-launching transition. -/
theorem C5_generation_error_behaviour_witness :
    ((wizUpdate trivialCredsEnv wizNoDeployModel (.generationError "boom")).1 =
      { wizNoDeployModel with err := some "boom", generating := false }) ∧
    ((wizUpdate trivialCredsEnv reviewModel (.key "enter")).2 =
      WizCmd.launchGenerate) ∧
    reviewModel.step = Step.review :=
  ⟨(C5_generation_error_behaviour trivialCredsEnv wizNoDeployModel "boom").1,
   by decide,
   ((C5_generation_error_behaviour trivialCredsEnv wizNoDeployModel "boom").2.2
      reviewModel (WizMsg.key "enter") (by decide)).1⟩

/-! ## C10 -/

/-- No text-entry field of the wizard state contains the letter `q`. -/
def qFreeTexts (m : WizModel) : Prop :=
  'q' ∉ m.projectName.data ∧ 'q' ∉ m.modulePath.data ∧ 'q' ∉ m.outputDir.data ∧
  'q' ∉ m.awsAccessKeyID.data ∧ 'q' ∉ m.awsSecretKey.data ∧ 'q' ∉ m.awsRegion.data

instance (m : WizModel) : Decidable (qFreeTexts m) := by
  unfold qFreeTexts
  infer_instance

/-- Appending two `q`-free strings stays `q`-free. -/
theorem append_qFree {a b : String} (ha : 'q' ∉ a.data) (hb : 'q' ∉ b.data) :
    'q' ∉ (a ++ b).data := by
  intro hmem
  rw [String.data_append] at hmem
  rcases List.mem_append.mp hmem with hm | hm
  · exact ha hm
  · exact hb hm

/-- Rune insertion cannot introduce the letter `q` when the key message is
not the `q` key. -/
theorem textUpdate_qFree {v : String} (s : String) (hv : 'q' ∉ v.data)
    (hs : s ≠ "q") : 'q' ∉ (textUpdate v s).data := by
  unfold textUpdate
  split
  · rename_i hlen
    intro hmem
    rw [String.data_append] at hmem
    rcases List.mem_append.mp hmem with hm | hm
    · exact hv hm
    · obtain ⟨c, hc⟩ := List.length_eq_one.mp hlen
      rw [hc] at hm
      simp only [List.mem_singleton] at hm
      apply hs
      have hsq2 : s = ⟨['q']⟩ := by
        cases s
        simp only at hc
        rw [hc, ← hm]
      exact hsq2
  · exact hv

/-- One step of `Model.Update` preserves `q`-freedom of all text fields,
provided the external credential loads are `q`-free. -/
theorem wizUpdate_qFree (env : CredsEnv)
    (henv : ∀ p, 'q' ∉ (env.load p).1.data ∧ 'q' ∉ (env.load p).2.1.data ∧
      'q' ∉ (env.load p).2.2.data)
    (m : WizModel) (msg : WizMsg) (hm : qFreeTexts m) :
    qFreeTexts (wizUpdate env m msg).1 := by
  cases msg with
  | tick => simpa [wizUpdate, qFreeTexts] using hm
  | generationComplete sd od pn =>
    by_cases hsd : sd <;> simpa [wizUpdate, hsd, qFreeTexts] using hm
  | generationError e => simpa [wizUpdate, qFreeTexts] using hm
  | deploymentComplete su e =>
    cases e <;> simpa [wizUpdate, qFreeTexts] using hm
  | key s =>
    by_cases hq : s = "ctrl+c" ∨ s = "q"
    · simpa [wizUpdate, hq] using hm
    · have hsq : s ≠ "q" := fun hh => hq (Or.inr hh)
      simp only [wizUpdate, if_neg hq]
      have hm₁ : qFreeTexts (if s = "esc" ∧ m.step.idx > 0 then
          { m with step := Step.ofIdx (m.step.idx - 1) } else m) := by
        split <;> simpa [qFreeTexts] using hm
      set m₁ := if s = "esc" ∧ m.step.idx > 0 then
          { m with step := Step.ofIdx (m.step.idx - 1) } else m with hdef
      obtain ⟨h1, h2, h3, h4, h5, h6⟩ := hm₁
      cases hstep : m₁.step <;> dsimp only <;> repeat' split
      all_goals
        refine ⟨?_, ?_, ?_, ?_, ?_, ?_⟩ <;> dsimp only <;>
          first
            | assumption
            | exact textUpdate_qFree s h1 hsq
            | exact textUpdate_qFree s h2 hsq
            | exact textUpdate_qFree s h3 hsq
            | exact textUpdate_qFree s h4 hsq
            | exact textUpdate_qFree s h5 hsq
            | exact textUpdate_qFree s h6 hsq
            | exact append_qFree (by decide) (textUpdate_qFree s h1 hsq)
            | exact (henv _).1
            | exact (henv _).2.1
            | exact (henv _).2.2

/-- C10: in every wizard state — the text-entry steps included — the `q`
key quits immediately with the state unchanged, before any step handler
can consume it; consequently no reachable state (under `q`-free external
credential loads) has a text field containing a typed letter `q`, despite
the promise of unrestricted live editing. -/
theorem C10_q_quits_immediately (env : CredsEnv)
    (henv : ∀ p, 'q' ∉ (env.load p).1.data ∧ 'q' ∉ (env.load p).2.1.data ∧
      'q' ∉ (env.load p).2.2.data)
    (profiles : List String) (msgs : List WizMsg) :
    (∀ m : WizModel, wizUpdate env m (.key "q") = (m, WizCmd.quit)) ∧
    qFreeTexts (wizRun env (initWizModel profiles) msgs) := by
  constructor
  · intro m
    simp [wizUpdate]
  · have hinit : qFreeTexts (initWizModel profiles) := by
      unfold qFreeTexts initWizModel
      refine ⟨?_, ?_, ?_, ?_, ?_, ?_⟩ <;> dsimp only <;> decide
    have haux : ∀ (ms : List WizMsg) (m : WizModel),
        qFreeTexts m → qFreeTexts (wizRun env m ms) := by
      intro ms
      induction ms with
      | nil => intro m hm; exact hm
      | cons msg rest ih =>
        intro m hm
        exact ih _ (wizUpdate_qFree env henv m msg hm)
    exact haux msgs _ hinit

/-- Witness for C10: the failed-lookup credential environment is `q`-free;
`q` quits from the completed Postgres/Chi run's state; and the text fields
along that whole run never contain `q`. -/
theorem C10_q_quits_immediately_witness :
    (∀ p, 'q' ∉ (trivialCredsEnv.load p).1.data ∧
      'q' ∉ (trivialCredsEnv.load p).2.1.data ∧
      'q' ∉ (trivialCredsEnv.load p).2.2.data) ∧
    (wizUpdate trivialCredsEnv wizNoDeployModel (.key "q") =
      (wizNoDeployModel, WizCmd.quit)) ∧
    qFreeTexts (wizRun trivialCredsEnv (initWizModel []) pgChiNoDeployTrace) :=
  ⟨fun _ => ⟨by dsimp only [trivialCredsEnv]; decide, by dsimp only [trivialCredsEnv]; decide, by dsimp only [trivialCredsEnv]; decide⟩,
   (C10_q_quits_immediately trivialCredsEnv
      (fun _ => ⟨by dsimp only [trivialCredsEnv]; decide, by dsimp only [trivialCredsEnv]; decide, by dsimp only [trivialCredsEnv]; decide⟩) [] pgChiNoDeployTrace).1
     wizNoDeployModel,
   (C10_q_quits_immediately trivialCredsEnv
      (fun _ => ⟨by dsimp only [trivialCredsEnv]; decide, by dsimp only [trivialCredsEnv]; decide, by dsimp only [trivialCredsEnv]; decide⟩) [] pgChiNoDeployTrace).2⟩

end CreateGoApi
